import Mathlib

/-!
Shallow embedding of the codecrafters HTTP server (final revision of the
source: `parseRequestData`, `getResponse`, the per-route handlers and
`generateResponse`).

Modelling conventions:
* a JavaScript string is a Lean `String`; a value that may be `undefined`
  is an `Option String`;
* a runtime exception (the `TypeError` from calling `.match` on `undefined`
  or destructuring `undefined`, the `URIError` from `decodeURIComponent`)
  is `none` in an `Option`-valued result;
* `String.prototype.split(sep)` with a non-empty string separator splits on
  every occurrence of `sep`, scanning for the leftmost occurrence each time;
  it is modelled by `jsSplit` below (fuel-based so that the kernel can
  evaluate it on concrete inputs);
* the two file-system primitives (`readFile(...).catch(() => null)` and the
  `try { writeFile ... } catch { return false }` wrapper) are injected as
  function parameters `readF : String → Option String` and
  `writeF : String → String → Bool`.
-/

/-- Leftmost-occurrence finder behind the model of `String.prototype.split`:
`dropAfterSep? sep s = some (a, r)` when the first occurrence of `sep` in `s`
is at offset `a.length`, i.e. `s = a ++ sep ++ r` and no occurrence of `sep`
starts earlier; `none` when a non-empty `sep` does not occur in `s`. -/
def dropAfterSep? (sep : List Char) : List Char → Option (List Char × List Char)
  | [] => none
  | c :: cs =>
    if sep.isPrefixOf (c :: cs) then some ([], (c :: cs).drop sep.length)
    else
      match dropAfterSep? sep cs with
      | none => none
      | some (a, r) => some (c :: a, r)

/-- Repeatedly split off the segment before the leftmost occurrence of `sep`.
`fuel` only serves to make the recursion structural; every step of the real
iteration consumes at least one character, so `fuel = s.length` always
suffices (when the fuel runs out the remaining input is necessarily `[]`,
for which `[s]` is also the correct answer). -/
def splitFuel (sep : List Char) : Nat → List Char → List (List Char)
  | 0, s => [s]
  | fuel + 1, s =>
    match dropAfterSep? sep s with
    | none => [s]
    | some (a, r) => a :: splitFuel sep fuel r

/-- Model of JavaScript `s.split(sep)` for a string separator. -/
def jsSplit (s sep : String) : List String :=
  if sep.data.isEmpty then s.data.map (fun c => (⟨[c]⟩ : String))
  else (splitFuel sep.data s.data.length s.data).map (fun l => (⟨l⟩ : String))

/-- The `HttpRequest` record produced by `parseRequestData`.  Fields that the
JavaScript code can leave `undefined` are `Option`s; each header line is kept
as the full list of `": "`-separated segments that `split` returns. -/
structure HttpRequest where
  httpMethod : Option String
  target : Option String
  httpVersion : Option String
  headers : List (List String)
  body : Option String
deriving DecidableEq

/-- `parseRequestData` from the source.  `split` with a non-empty separator
always returns at least one element, so the `headD ""` defaults for `head`
and `startLine` are never exercised; `body`, `target` and `httpVersion`
genuinely can be `undefined`. -/
def parseRequestData (data : String) : HttpRequest :=
  let parts := jsSplit data "\r\n\r\n"
  let head := parts.headD ""
  let body := parts[1]?
  let lines := jsSplit head "\r\n"
  let startLine := lines.headD ""
  let rawHeaders := lines.drop 1
  let tokens := jsSplit startLine " "
  ⟨tokens[0]?, tokens[1]?, tokens[2]?, rawHeaders.map (fun h => jsSplit h ": "), body⟩

/-- The `HTTP_STATUS` enumeration. -/
inductive HttpStatus
  | OK
  | CREATED
  | NOT_FOUND
  | INTERNAL_SERVER_ERROR
deriving DecidableEq

/-- The `RESPONSE_START_LINE` table (each literal includes its trailing CRLF,
exactly as in the source). -/
def RESPONSE_START_LINE : HttpStatus → String
  | .OK => "HTTP/1.1 200 OK\r\n"
  | .CREATED => "HTTP/1.1 201 Created\r\n"
  | .NOT_FOUND => "HTTP/1.1 404 Not Found\r\n"
  | .INTERNAL_SERVER_ERROR => "HTTP/1.1 500 Internal Server Error\r\n"

/-- `generateHeader` from the source: the template `` `${key}: ${value}\r\n` ``. -/
def generateHeader (key value : String) : String :=
  key ++ ": " ++ value ++ "\r\n"

/-- `[...].join("")`: plain concatenation of a list of strings. -/
def joinAll : List String → String
  | [] => ""
  | s :: rest => s ++ joinAll rest

/-- `generateResponse` from the source:
`[startLine, ...responseHeaders, emptyLine, body].join("")`. -/
def generateResponse (httpStatus : HttpStatus) (headers : List (String × String))
    (body : String) : String :=
  joinAll (RESPONSE_START_LINE httpStatus ::
    headers.map (fun kv => generateHeader kv.1 kv.2) ++ ["\r\n", body])

/-- UTF-8 size of one character; `Buffer.byteLength` of a JS string is the sum
of these. -/
def utf8Len (c : Char) : Nat :=
  if c.toNat < 0x80 then 1
  else if c.toNat < 0x800 then 2
  else if c.toNat < 0x10000 then 3
  else 4

/-- Model of `Buffer.byteLength(s)`: the UTF-8 byte count of `s` (not the
character count). -/
def byteLength (s : String) : Nat :=
  (s.data.map utf8Len).sum

/-- Numeric value of a hexadecimal digit, if any (both cases accepted, as in
the ECMAScript `Decode` algorithm). -/
def hexDigit? (c : Char) : Option Nat :=
  if 48 ≤ c.toNat ∧ c.toNat ≤ 57 then some (c.toNat - 48)
  else if 65 ≤ c.toNat ∧ c.toNat ≤ 70 then some (c.toNat - 55)
  else if 97 ≤ c.toNat ∧ c.toNat ≤ 102 then some (c.toNat - 87)
  else none

/-- One `%HH` continuation escape at offset `i` of `l`, for the ECMAScript
`Decode` algorithm: requires a `%` followed by two hex digits whose byte value
lies in `80..BF`, and yields that byte. -/
def contAt (l : List Char) (i : Nat) : Option Nat :=
  (l[i]?).bind (fun p =>
    (l[i + 1]?).bind (fun d1 =>
      (l[i + 2]?).bind (fun d2 =>
        if p = '%' then
          (hexDigit? d1).bind (fun x =>
            (hexDigit? d2).bind (fun y =>
              let Bc := 16 * x + y
              if 0x80 ≤ Bc ∧ Bc < 0xC0 then some Bc else none))
        else none)))

/-- The escape-sequence case of the ECMAScript `Decode` loop, applied to the
input following a `%`.  Two hex digits give the lead byte `B`; a lead byte
below `80` decodes on its own, and lead bytes of 2-, 3- and 4-byte UTF-8
sequences consume the corresponding `%`-escaped continuation bytes, rejecting
stray continuation bytes, overlong encodings, surrogates and values above
`10FFFF` — any failure is the thrown `URIError` (`none`).  `dec` is the
continuation of the decode loop on the remaining input. -/
def pctCase (dec : List Char → Option (List Char)) (rest : List Char) :
    Option (List Char) :=
  (rest[0]?).bind (fun d1 =>
    (rest[1]?).bind (fun d2 =>
      (hexDigit? d1).bind (fun a =>
        (hexDigit? d2).bind (fun b =>
          let B := 16 * a + b
          let rest2 := rest.drop 2
          if B < 0x80 then (dec rest2).map (fun l => Char.ofNat B :: l)
          else if B < 0xC0 then none
          else if B < 0xE0 then
            (contAt rest2 0).bind (fun B1 =>
              let V := (B - 0xC0) * 0x40 + (B1 - 0x80)
              if 0x80 ≤ V then (dec (rest2.drop 3)).map (fun l => Char.ofNat V :: l)
              else none)
          else if B < 0xF0 then
            (contAt rest2 0).bind (fun B1 =>
              (contAt rest2 3).bind (fun B2 =>
                let V := (B - 0xE0) * 0x1000 + (B1 - 0x80) * 0x40 + (B2 - 0x80)
                if 0x800 ≤ V ∧ ¬ (0xD800 ≤ V ∧ V ≤ 0xDFFF) then
                  (dec (rest2.drop 6)).map (fun l => Char.ofNat V :: l)
                else none))
          else if B < 0xF8 then
            (contAt rest2 0).bind (fun B1 =>
              (contAt rest2 3).bind (fun B2 =>
                (contAt rest2 6).bind (fun B3 =>
                  let V := (B - 0xF0) * 0x40000 + (B1 - 0x80) * 0x1000 +
                    (B2 - 0x80) * 0x40 + (B3 - 0x80)
                  if 0x10000 ≤ V ∧ V ≤ 0x10FFFF then
                    (dec (rest2.drop 9)).map (fun l => Char.ofNat V :: l)
                  else none)))
          else none))))

/-- The ECMAScript `Decode` loop behind `decodeURIComponent` (with the empty
reserved set): literal characters pass through, a `%` enters `pctCase`.  As
with `splitFuel`, `fuel` only makes the recursion structural: every step
consumes at least one input character, so `fuel = l.length` always suffices
and the `fuel = 0` equation for non-empty input is never reached from
`decodeURIComponent`. -/
def decodeFuel : Nat → List Char → Option (List Char)
  | _, [] => some []
  | 0, _ :: _ => none
  | fuel + 1, c :: rest =>
    if c = '%' then pctCase (decodeFuel fuel) rest
    else (decodeFuel fuel rest).map (fun l => c :: l)

/-- Model of `decodeURIComponent`; `none` is the thrown `URIError`. -/
def decodeURIComponent (s : String) : Option String :=
  (decodeFuel s.data.length s.data).map (fun l => (⟨l⟩ : String))

/-- Model of `t.match(/^pat/)` being truthy, for the anchored literal regexes
`PATH.ECHO` and `PATH.FILES`. -/
def startsWithPat (pat t : String) : Bool :=
  pat.data.isPrefixOf t.data

/-- Model of `t.replace(/^pat/, "")` for the same anchored literal regexes:
remove the pattern when it is a leading match, otherwise leave `t` alone. -/
def replacePat (pat t : String) : String :=
  if pat.data.isPrefixOf t.data then ⟨t.data.drop pat.data.length⟩ else t

/-- `getRootResponse`. -/
def getRootResponse (_req : HttpRequest) : String :=
  generateResponse .OK [] ""

/-- `getNotFoundResponse`. -/
def getNotFoundResponse (_req : HttpRequest) : String :=
  generateResponse .NOT_FOUND [] ""

/-- `getInternalServerErrorResponse`. -/
def getInternalServerErrorResponse (_req : HttpRequest) : String :=
  generateResponse .INTERNAL_SERVER_ERROR [] ""

/-- `getEchoResponse`.  A `URIError` from `decodeURIComponent` propagates as
`none`.  (The route guard guarantees `target` is defined whenever this handler
runs, so the `getD ""` default is never exercised.) -/
def getEchoResponse (req : HttpRequest) : Option String :=
  let message := replacePat "/echo/" (req.target.getD "")
  (decodeURIComponent message).map (fun body =>
    generateResponse .OK
      [("Content-Type", "text/plain"), ("Content-Length", Nat.repr (byteLength body))]
      body)

/-- `getUserAgentResponse`.  `headers.find(([key]) => key === "User-Agent")`
returns `undefined` when no header matches, and the destructuring
`const [, userAgent = ""] = undefined` then throws a `TypeError` (modelled by
`none`).  When a header is found, a missing second element defaults to `""`. -/
def getUserAgentResponse (req : HttpRequest) : Option String :=
  (req.headers.find? (fun l => l[0]? == some "User-Agent")).elim none (fun l =>
    let userAgent := (l[1]?).getD ""
    some (generateResponse .OK
      [("Content-Type", "text/plain"), ("Content-Length", Nat.repr (byteLength userAgent))]
      userAgent))

/-- `getFile`: the injected read primitive (`readFile(path).catch(() => null)`):
`none` is the absent/error marker. -/
def getFile (readF : String → Option String) (filename : String) : Option String :=
  readF filename

/-- `saveFile`: the injected write primitive wrapped in `try/catch`.  Writing
an `undefined` body makes `fs.writeFile` reject, which the `catch` turns into
`false`. -/
def saveFile (writeF : String → String → Bool) (filename : String)
    (content : Option String) : Bool :=
  content.elim false (fun c => writeF filename c)

/-- `getFilesResponse`. -/
def getFilesResponse (readF : String → Option String) (req : HttpRequest) : String :=
  let filename := replacePat "/files/" (req.target.getD "")
  (getFile readF filename).elim (getNotFoundResponse req) (fun file =>
    generateResponse .OK
      [("Content-Type", "application/octet-stream"),
       ("Content-Length", Nat.repr (byteLength file))]
      file)

/-- `getSaveFilesResponse`. -/
def getSaveFilesResponse (writeF : String → String → Bool) (req : HttpRequest) : String :=
  let filename := replacePat "/files/" (req.target.getD "")
  if saveFile writeF filename req.body then generateResponse .CREATED [] ""
  else getInternalServerErrorResponse req

/-- The routing part of `getResponse`, operating on the parsed request.  The
five `if` guards appear in source order; within the `GET` (resp. `POST`) arm
an `undefined` target reaches `target.match(...)`, which throws a `TypeError`
(`none`).  A method that is neither `GET` nor `POST` short-circuits every
guard at the method test, so even an `undefined` target falls through
to 404. -/
def getResponseReq (readF : String → Option String) (writeF : String → String → Bool)
    (req : HttpRequest) : Option String :=
  if req.httpMethod = some "GET" ∧ req.target = some "/" then
    some (getRootResponse req)
  else if req.httpMethod = some "GET" then
    req.target.elim none (fun t =>
      if startsWithPat "/echo/" t then getEchoResponse req
      else if t = "/user-agent" then getUserAgentResponse req
      else if startsWithPat "/files/" t then some (getFilesResponse readF req)
      else some (getNotFoundResponse req))
  else if req.httpMethod = some "POST" then
    req.target.elim none (fun t =>
      if startsWithPat "/files/" t then some (getSaveFilesResponse writeF req)
      else some (getNotFoundResponse req))
  else some (getNotFoundResponse req)

/-- `getResponse`: parse the raw bytes, then route. -/
def getResponse (readF : String → Option String) (writeF : String → String → Bool)
    (data : String) : Option String :=
  getResponseReq readF writeF (parseRequestData data)

/-! ## Specification-shaped definitions

These follow the wording of the spec and of the claims; they are compared
with the source-derived definitions above. -/

/-- The segment of `s` before the first occurrence of `sep` (all of `s` when
there is none) — the spec's "everything before that first occurrence". -/
def firstSegL (sep s : List Char) : List Char :=
  match dropAfterSep? sep s with
  | none => s
  | some p => p.1

/-- String-level `firstSegL`. -/
def headBefore (sep s : String) : String :=
  ⟨firstSegL sep.data s.data⟩

/-- Everything of `s` after the first occurrence of `sep`, or `none` when the
separator is absent — the spec's "everything after it". -/
def tailAfter (sep s : String) : Option String :=
  (dropAfterSep? sep.data s.data).map (fun p => (⟨p.2⟩ : String))

/-- The status-line literal of the spec, without the line terminator. -/
def specStatusLine : HttpStatus → String
  | .OK => "HTTP/1.1 200 OK"
  | .CREATED => "HTTP/1.1 201 Created"
  | .NOT_FOUND => "HTTP/1.1 404 Not Found"
  | .INTERNAL_SERVER_ERROR => "HTTP/1.1 500 Internal Server Error"

/-- The spec's serialization of the header block: `name: value CRLF` for each
pair, in order. -/
def serializeHeaders : List (String × String) → String
  | [] => ""
  | kv :: rest => kv.1 ++ ": " ++ kv.2 ++ "\r\n" ++ serializeHeaders rest

/-- Upper-case hexadecimal digit for `n < 16`. -/
def toHexU (n : Nat) : Char :=
  if n < 10 then Char.ofNat (48 + n) else Char.ofNat (55 + n)

/-- Characters `encodeURIComponent` leaves unescaped:
alphanumerics and `-_.!~*'()`. -/
def uriUnreserved (c : Char) : Bool :=
  decide ((65 ≤ c.toNat ∧ c.toNat ≤ 90) ∨ (97 ≤ c.toNat ∧ c.toNat ≤ 122) ∨
    (48 ≤ c.toNat ∧ c.toNat ≤ 57) ∨
    c ∈ ['-', '_', '.', '!', '~', '*', Char.ofNat 39, '(', ')'])

/-- `encodeURIComponent` on a single character, restricted to the one-byte
(ASCII) case the round-trip property quantifies over. -/
def encChar (c : Char) : List Char :=
  if uriUnreserved c then [c]
  else ['%', toHexU (c.toNat / 16), toHexU (c.toNat % 16)]

/-- Character-list percent-encoding. -/
def encList : List Char → List Char
  | [] => []
  | c :: t => encChar c ++ encList t

/-- The claim's `enc(s)`: percent-encoding of a printable-ASCII string. -/
def percentEncode (s : String) : String :=
  ⟨encList s.data⟩

/-- Printable ASCII, the domain of the spec's echo round-trip property. -/
abbrev printableAscii (s : String) : Prop :=
  ∀ c ∈ s.data, 32 ≤ c.toNat ∧ c.toNat ≤ 126

/-- Modelled from the spec: the file-system collaborator (§6,
`write(directory, filename, bytes) -> ok`, `read(directory, filename) ->
bytes or absent`).  After a successful write of `content` under `name`, a
read of `name` returns `content`; other names are unaffected. -/
def fsAfterWrite (readF : String → Option String) (name content : String) :
    String → Option String :=
  fun g => if g = name then some content else readF g

/-! ## Helper lemmas -/

theorem startLine_eq (st : HttpStatus) :
    RESPONSE_START_LINE st = specStatusLine st ++ "\r\n" := by
  cases st <;> rfl

theorem joinAll_map_headers (hs : List (String × String)) (tail : List String) :
    joinAll (hs.map (fun kv => generateHeader kv.1 kv.2) ++ tail) =
      serializeHeaders hs ++ joinAll tail := by
  induction hs with
  | nil => simp [serializeHeaders]
  | cons kv t ih =>
    simp only [List.map_cons, List.cons_append, List.append_eq, joinAll]
    rw [ih]
    simp [serializeHeaders, generateHeader, String.append_assoc]

theorem generateResponse_eq (st : HttpStatus) (hs : List (String × String)) (b : String) :
    generateResponse st hs b =
      specStatusLine st ++ "\r\n" ++ serializeHeaders hs ++ "\r\n" ++ b := by
  unfold generateResponse
  rw [show (RESPONSE_START_LINE st ::
      hs.map (fun kv => generateHeader kv.1 kv.2) ++ ["\r\n", b]) =
      RESPONSE_START_LINE st ::
      (hs.map (fun kv => generateHeader kv.1 kv.2) ++ ["\r\n", b]) from rfl]
  show RESPONSE_START_LINE st ++
      joinAll (hs.map (fun kv => generateHeader kv.1 kv.2) ++ ["\r\n", b]) = _
  rw [joinAll_map_headers, startLine_eq]
  simp [joinAll, String.append_assoc]

theorem generateResponse_two (st : HttpStatus) (k1 v1 k2 n b : String) :
    generateResponse st [(k1, v1), (k2, n)] b =
      (specStatusLine st ++ "\r\n" ++ k1 ++ ": " ++ v1 ++ "\r\n" ++ k2 ++ ": ") ++
        n ++ "\r\n\r\n" ++ b := by
  rw [generateResponse_eq, show ("\r\n\r\n" : String) = "\r\n" ++ "\r\n" from rfl]
  simp [serializeHeaders, String.append_assoc]

theorem replacePat_append (p r : String) : replacePat p (p ++ r) = r := by
  unfold replacePat
  rw [String.data_append,
    if_pos (List.isPrefixOf_iff_prefix.mpr (List.prefix_append p.data r.data)),
    List.drop_left]

theorem startsWithPat_append (p r : String) : startsWithPat p (p ++ r) = true := by
  unfold startsWithPat
  rw [String.data_append]
  exact List.isPrefixOf_iff_prefix.mpr (List.prefix_append p.data r.data)

theorem startsWithPat_length {p t : String} (h : startsWithPat p t = true) :
    p.data.length ≤ t.data.length :=
  (List.isPrefixOf_iff_prefix.mp h).length_le

theorem route_root (rf : String → Option String) (wf : String → String → Bool)
    (req : HttpRequest) (hm : req.httpMethod = some "GET") (ht : req.target = some "/") :
    getResponseReq rf wf req = some (getRootResponse req) := by
  unfold getResponseReq
  rw [if_pos ⟨hm, ht⟩]

theorem route_get_aux (rf : String → Option String) (wf : String → String → Bool)
    (req : HttpRequest) (t : String) (hm : req.httpMethod = some "GET")
    (ht : req.target = some t) (hne : t ≠ "/") :
    getResponseReq rf wf req =
      (if startsWithPat "/echo/" t then getEchoResponse req
       else if t = "/user-agent" then getUserAgentResponse req
       else if startsWithPat "/files/" t then some (getFilesResponse rf req)
       else some (getNotFoundResponse req)) := by
  unfold getResponseReq
  rw [if_neg (fun h => hne (Option.some.inj (ht ▸ h.2))), if_pos hm, ht]
  rfl

theorem route_echo (rf : String → Option String) (wf : String → String → Bool)
    (req : HttpRequest) (t : String) (hm : req.httpMethod = some "GET")
    (ht : req.target = some t) (hp : startsWithPat "/echo/" t = true) :
    getResponseReq rf wf req = getEchoResponse req := by
  have hne : t ≠ "/" := by
    intro h
    have := startsWithPat_length hp
    rw [h] at this
    exact absurd this (by decide)
  rw [route_get_aux rf wf req t hm ht hne, if_pos hp]

theorem route_ua (rf : String → Option String) (wf : String → String → Bool)
    (req : HttpRequest) (hm : req.httpMethod = some "GET")
    (ht : req.target = some "/user-agent") :
    getResponseReq rf wf req = getUserAgentResponse req := by
  rw [route_get_aux rf wf req "/user-agent" hm ht (by decide),
    if_neg (by decide), if_pos rfl]

theorem filesShape {t : String} (hp : startsWithPat "/files/" t = true) :
    ∃ r : List Char, t.data = '/' :: 'f' :: 'i' :: 'l' :: 'e' :: 's' :: '/' :: r := by
  obtain ⟨r, hr⟩ := List.isPrefixOf_iff_prefix.mp hp
  exact ⟨r, hr.symm⟩

theorem route_filesGet (rf : String → Option String) (wf : String → String → Bool)
    (req : HttpRequest) (t : String) (hm : req.httpMethod = some "GET")
    (ht : req.target = some t) (hp : startsWithPat "/files/" t = true) :
    getResponseReq rf wf req = some (getFilesResponse rf req) := by
  obtain ⟨r, hr⟩ := filesShape hp
  have hne : t ≠ "/" := by
    intro h
    rw [h] at hr
    exact absurd hr (by simp)
  have hech : startsWithPat "/echo/" t = false := by
    unfold startsWithPat
    rw [hr]
    rfl
  have hua : t ≠ "/user-agent" := by
    intro h
    rw [h] at hr
    have : ('u' : Char) = 'f' := by
      have h1 := List.cons.inj hr
      have h2 := List.cons.inj h1.2
      exact h2.1
    exact absurd this (by decide)
  rw [route_get_aux rf wf req t hm ht hne,
    if_neg (by rw [hech]; exact Bool.false_ne_true), if_neg hua, if_pos hp]

theorem route_filesPost (rf : String → Option String) (wf : String → String → Bool)
    (req : HttpRequest) (t : String) (hm : req.httpMethod = some "POST")
    (ht : req.target = some t) (hp : startsWithPat "/files/" t = true) :
    getResponseReq rf wf req = some (getSaveFilesResponse wf req) := by
  have hng : req.httpMethod ≠ some "GET" := by
    rw [hm]
    intro h
    exact absurd (Option.some.inj h) (by decide)
  unfold getResponseReq
  rw [if_neg (fun h => hng h.1), if_neg hng, if_pos hm, ht]
  show (if startsWithPat "/files/" t then some (getSaveFilesResponse wf req)
    else some (getNotFoundResponse req)) = _
  rw [if_pos hp]

theorem route_404_method (rf : String → Option String) (wf : String → String → Bool)
    (req : HttpRequest) (hng : req.httpMethod ≠ some "GET")
    (hnp : req.httpMethod ≠ some "POST") :
    getResponseReq rf wf req = some (getNotFoundResponse req) := by
  unfold getResponseReq
  rw [if_neg (fun h => hng h.1), if_neg hng, if_neg hnp]

theorem route_404_get (rf : String → Option String) (wf : String → String → Bool)
    (req : HttpRequest) (t : String) (hm : req.httpMethod = some "GET")
    (ht : req.target = some t) (h1 : t ≠ "/") (h2 : startsWithPat "/echo/" t = false)
    (h3 : t ≠ "/user-agent") (h4 : startsWithPat "/files/" t = false) :
    getResponseReq rf wf req = some (getNotFoundResponse req) := by
  rw [route_get_aux rf wf req t hm ht h1,
    if_neg (by rw [h2]; exact Bool.false_ne_true), if_neg h3,
    if_neg (by rw [h4]; exact Bool.false_ne_true)]

theorem route_404_post (rf : String → Option String) (wf : String → String → Bool)
    (req : HttpRequest) (t : String) (hm : req.httpMethod = some "POST")
    (ht : req.target = some t) (h4 : startsWithPat "/files/" t = false) :
    getResponseReq rf wf req = some (getNotFoundResponse req) := by
  have hng : req.httpMethod ≠ some "GET" := by
    rw [hm]
    intro h
    exact absurd (Option.some.inj h) (by decide)
  unfold getResponseReq
  rw [if_neg (fun h => hng h.1), if_neg hng, if_pos hm, ht]
  show (if startsWithPat "/files/" t then some (getSaveFilesResponse wf req)
    else some (getNotFoundResponse req)) = _
  rw [if_neg (by rw [h4]; exact Bool.false_ne_true)]

theorem route_no_target (rf : String → Option String) (wf : String → String → Bool)
    (req : HttpRequest)
    (hm : req.httpMethod = some "GET" ∨ req.httpMethod = some "POST")
    (ht : req.target = none) :
    getResponseReq rf wf req = none := by
  unfold getResponseReq
  rw [if_neg (fun h => by rw [ht] at h; cases h.2)]
  rcases hm with hm | hm
  · rw [if_pos hm, ht]
    rfl
  · have hng : req.httpMethod ≠ some "GET" := by
      rw [hm]
      intro h
      exact absurd (Option.some.inj h) (by decide)
    rw [if_neg hng, if_pos hm, ht]
    rfl

theorem dropAfterSep?_length {sep : List Char} (hsep : sep ≠ []) :
    ∀ s a r, dropAfterSep? sep s = some (a, r) → r.length < s.length := by
  intro s
  induction s with
  | nil => intro a r h; exact absurd h (by simp [dropAfterSep?])
  | cons c cs ih =>
    intro a r h
    rw [dropAfterSep?] at h
    by_cases hp : sep.isPrefixOf (c :: cs)
    · rw [if_pos hp] at h
      obtain ⟨-, hr⟩ := Prod.mk.inj (Option.some.inj h)
      rw [← hr]
      have hlen : 0 < sep.length := List.length_pos.mpr hsep
      simp only [List.length_drop, List.length_cons]
      omega
    · rw [if_neg hp] at h
      cases e : dropAfterSep? sep cs with
      | none => rw [e] at h; exact absurd h (by simp)
      | some p =>
        rw [e] at h
        obtain ⟨-, hr⟩ := Prod.mk.inj (Option.some.inj h)
        have := ih p.1 p.2 (by rw [e])
        rw [← hr]
        simp only [List.length_cons]
        omega

theorem splitFuel_head {sep : List Char} (_hsep : sep ≠ []) :
    ∀ fuel s, s.length ≤ fuel →
      (splitFuel sep fuel s).head? = some (firstSegL sep s) := by
  intro fuel
  cases fuel with
  | zero =>
    intro s hs
    have hnil : s = [] := List.length_eq_zero.mp (Nat.le_zero.mp hs)
    subst hnil
    rfl
  | succ n =>
    intro s hs
    rw [splitFuel, firstSegL]
    cases e : dropAfterSep? sep s with
    | none => rfl
    | some p => rfl

theorem jsSplit_first_second (sep : String) (hsep : sep.data ≠ []) (s : String) :
    (jsSplit s sep).head? = some (headBefore sep s) ∧
    (jsSplit s sep)[1]? = (tailAfter sep s).map (fun r => headBefore sep r) := by
  have hEmp : sep.data.isEmpty = false := by
    cases hd : sep.data with
    | nil => exact absurd hd hsep
    | cons a l => rfl
  unfold jsSplit
  rw [if_neg (by rw [hEmp]; exact Bool.false_ne_true)]
  constructor
  · rw [List.head?_map, splitFuel_head hsep s.data.length s.data (Nat.le_refl _)]
    rfl
  · cases e : dropAfterSep? sep.data s.data with
    | none =>
      have hfix : splitFuel sep.data s.data.length s.data = [s.data] := by
        cases hf : s.data.length with
        | zero => rfl
        | succ n => rw [splitFuel, e]
      rw [hfix]
      simp [tailAfter, e]
    | some p =>
      have hne : s.data ≠ [] := by
        intro h
        rw [h] at e
        exact absurd e (by simp [dropAfterSep?])
      have hlt := dropAfterSep?_length hsep s.data p.1 p.2 (by rw [e])
      obtain ⟨n, hn⟩ : ∃ n, s.data.length = n + 1 :=
        ⟨s.data.length - 1, by have := List.length_pos.mpr hne; omega⟩
      rw [hn, splitFuel, e]
      rw [List.map_cons, List.getElem?_cons_succ, ← List.head?_eq_getElem?,
        List.head?_map, splitFuel_head hsep n p.2 (by omega)]
      simp [tailAfter, headBefore, e]

theorem parse_body_eq (data : String) :
    (parseRequestData data).body = (jsSplit data "\r\n\r\n")[1]? := rfl

theorem hexRound : ∀ n : Fin 16, hexDigit? (toHexU n.1) = some n.1 := by decide


theorem decodeFuel_encList :
    ∀ cs : List Char, (∀ c ∈ cs, c.toNat ≤ 126) →
      ∀ fuel, (encList cs).length ≤ fuel → decodeFuel fuel (encList cs) = some cs := by
  intro cs
  induction cs with
  | nil =>
    intro _ fuel _
    cases fuel <;> rfl
  | cons c t ih =>
    intro h fuel hf
    have hc : c.toNat ≤ 126 := h c (List.mem_cons_self c t)
    have ht : ∀ c' ∈ t, c'.toNat ≤ 126 := fun c' hc' => h c' (List.mem_cons_of_mem _ hc')
    have hlen : (encList (c :: t)).length = (encChar c).length + (encList t).length := by
      show (encChar c ++ encList t).length = _
      simp
    by_cases hu : uriUnreserved c = true
    · have hec : encChar c = [c] := by rw [encChar, if_pos hu]
      have hcp : ¬ (c = '%') := by
        intro he
        rw [he] at hu
        exact absurd hu (by decide)
      obtain ⟨f, rfl⟩ : ∃ f, fuel = f + 1 := by
        rw [hlen, hec] at hf
        exact ⟨fuel - 1, by simp at hf; omega⟩
      have hfle : (encList t).length ≤ f := by
        rw [hlen, hec] at hf
        simp at hf
        omega
      show decodeFuel (f + 1) (encList (c :: t)) = some (c :: t)
      rw [show encList (c :: t) = c :: encList t from by rw [encList, hec]; rfl]
      show (if c = '%' then pctCase (decodeFuel f) (encList t)
        else (decodeFuel f (encList t)).map (fun l => c :: l)) = some (c :: t)
      rw [if_neg hcp, ih ht f hfle]
      rfl
    · have hec : encChar c = ['%', toHexU (c.toNat / 16), toHexU (c.toNat % 16)] := by
        rw [encChar, if_neg hu]
      have h1 : hexDigit? (toHexU (c.toNat / 16)) = some (c.toNat / 16) :=
        hexRound ⟨c.toNat / 16, by omega⟩
      have h2 : hexDigit? (toHexU (c.toNat % 16)) = some (c.toNat % 16) :=
        hexRound ⟨c.toNat % 16, by omega⟩
      obtain ⟨f, rfl⟩ : ∃ f, fuel = f + 1 := by
        rw [hlen, hec] at hf
        exact ⟨fuel - 1, by simp at hf; omega⟩
      have hfle : (encList t).length ≤ f := by
        rw [hlen, hec] at hf
        simp at hf
        omega
      show decodeFuel (f + 1) (encList (c :: t)) = some (c :: t)
      rw [show encList (c :: t) =
        '%' :: toHexU (c.toNat / 16) :: toHexU (c.toNat % 16) :: encList t from
        by rw [encList, hec]; rfl]
      show (if ('%' : Char) = '%' then
          pctCase (decodeFuel f) (toHexU (c.toNat / 16) :: toHexU (c.toNat % 16) :: encList t)
        else (decodeFuel f (toHexU (c.toNat / 16) :: toHexU (c.toNat % 16) :: encList t)).map
          (fun l => '%' :: l)) = some (c :: t)
      rw [if_pos rfl]
      unfold pctCase
      simp only [List.getElem?_cons_zero, List.getElem?_cons_succ, Option.some_bind,
        h1, h2, Nat.div_add_mod, List.drop_succ_cons, List.drop_zero]
      rw [if_pos (show c.toNat < 0x80 by omega), ih ht f hfle]
      simp [Char.ofNat_toNat]

theorem byteLength_ascii :
    ∀ l : List Char, (∀ c ∈ l, c.toNat ≤ 126) → (l.map utf8Len).sum = l.length := by
  intro l
  induction l with
  | nil => intro _; rfl
  | cons c t ih =>
    intro h
    have hc : c.toNat ≤ 126 := h c (List.mem_cons_self c t)
    have ht : ∀ c' ∈ t, c'.toNat ≤ 126 := fun c' hc' => h c' (List.mem_cons_of_mem _ hc')
    simp only [List.map_cons, List.sum_cons, List.length_cons, ih ht]
    rw [utf8Len, if_pos (by omega)]
    omega

theorem getEchoResponse_eq (req : HttpRequest) (rest : String)
    (ht : req.target = some ("/echo/" ++ rest)) :
    getEchoResponse req = (decodeURIComponent rest).map (fun body =>
      generateResponse .OK
        [("Content-Type", "text/plain"), ("Content-Length", Nat.repr (byteLength body))]
        body) := by
  unfold getEchoResponse
  rw [ht, Option.getD_some, replacePat_append]

theorem getFilesResponse_eq (rf : String → Option String) (req : HttpRequest)
    (name : String) (ht : req.target = some ("/files/" ++ name)) :
    getFilesResponse rf req = (rf name).elim (getNotFoundResponse req) (fun file =>
      generateResponse .OK
        [("Content-Type", "application/octet-stream"),
         ("Content-Length", Nat.repr (byteLength file))]
        file) := by
  unfold getFilesResponse getFile
  rw [ht, Option.getD_some, replacePat_append]

theorem getSaveFilesResponse_eq (wf : String → String → Bool) (req : HttpRequest)
    (name : String) (ht : req.target = some ("/files/" ++ name)) :
    getSaveFilesResponse wf req =
      (if saveFile wf name req.body then generateResponse .CREATED [] ""
       else getInternalServerErrorResponse req) := by
  unfold getSaveFilesResponse
  rw [ht, Option.getD_some, replacePat_append]

/-! ## Claim theorems -/

/-- Claim C9: every serialized response is exactly the fixed status-line
literal for its status code followed by CRLF, then each header as
`name: value` plus CRLF in insertion order, then CRLF, then the body, with no
trailing bytes after the body. -/
theorem serialization_format :
    (∀ (st : HttpStatus) (hs : List (String × String)) (b : String),
      generateResponse st hs b =
        specStatusLine st ++ "\r\n" ++ serializeHeaders hs ++ "\r\n" ++ b) ∧
    specStatusLine .OK = "HTTP/1.1 200 OK" ∧
    specStatusLine .CREATED = "HTTP/1.1 201 Created" ∧
    specStatusLine .NOT_FOUND = "HTTP/1.1 404 Not Found" ∧
    specStatusLine .INTERNAL_SERVER_ERROR = "HTTP/1.1 500 Internal Server Error" :=
  ⟨generateResponse_eq, rfl, rfl, rfl, rfl⟩

/-- Claim C2 counterexample: for the input `"A\r\n\r\nB\r\n\r\nC"` (a body
that itself contains the blank-line separator) the parsed body is only `"B"`,
not the claimed "everything after the first occurrence" `"B\r\n\r\nC"`:
JavaScript `split` splits on every occurrence and the destructuring keeps only
the second piece. -/
theorem body_split_counterexample :
    (parseRequestData "A\r\n\r\nB\r\n\r\nC").body = some "B" ∧
    (parseRequestData "A\r\n\r\nB\r\n\r\nC").body ≠ some "B\r\n\r\nC" :=
  ⟨rfl, by decide⟩

/-- Claim C2 (amended): the parser splits on every occurrence of
`"\r\n\r\n"`; the head is everything before the first occurrence, and the
body is the segment after the first occurrence truncated before the next
occurrence (content after a second occurrence is dropped); if the separator
is absent the head is the whole input and the body is undefined. -/
theorem parser_blankline_split (data : String) :
    (jsSplit data "\r\n\r\n").head? = some (headBefore "\r\n\r\n" data) ∧
    (parseRequestData data).body =
      (tailAfter "\r\n\r\n" data).map (fun r => headBefore "\r\n\r\n" r) := by
  have h := jsSplit_first_second "\r\n\r\n" (by decide) data
  exact ⟨h.1, by rw [parse_body_eq]; exact h.2⟩

/-- Claim C8 counterexample: the header line `"User-Agent: foo: bar"` is split
on every `": "` occurrence into three segments, not into the claimed pair
`("User-Agent", "foo: bar")`; the user-agent lookup consequently serves the
truncated value `"foo"`. -/
theorem header_split_counterexample :
    (parseRequestData "GET / HTTP/1.1\r\nUser-Agent: foo: bar\r\n\r\n").headers =
      [["User-Agent", "foo", "bar"]] ∧
    (parseRequestData "GET / HTTP/1.1\r\nUser-Agent: foo: bar\r\n\r\n").headers ≠
      [["User-Agent", "foo: bar"]] ∧
    getResponse (fun _ => none) (fun _ _ => false)
      "GET /user-agent HTTP/1.1\r\nUser-Agent: foo: bar\r\n\r\n" =
      some "HTTP/1.1 200 OK\r\nContent-Type: text/plain\r\nContent-Length: 3\r\n\r\nfoo" :=
  ⟨rfl, by decide, rfl⟩

/-- Claim C8 (amended): each header line is split on every `": "` occurrence;
a line with no `": "` yields a single-element list, whose missing value the
user-agent lookup tolerates as the empty string; the head of the split is the
text before the first `": "` and the element used as the value is truncated
before the next `": "`. -/
theorem header_split_amended :
    (∀ line : String, tailAfter ": " line = none → jsSplit line ": " = [line]) ∧
    (∀ line : String,
      (jsSplit line ": ").head? = some (headBefore ": " line) ∧
      (jsSplit line ": ")[1]? = (tailAfter ": " line).map (fun r => headBefore ": " r)) ∧
    (∀ (m t v : Option String) (b : Option String),
      getUserAgentResponse ⟨m, t, v, [["User-Agent"]], b⟩ =
        some "HTTP/1.1 200 OK\r\nContent-Type: text/plain\r\nContent-Length: 0\r\n\r\n") := by
  refine ⟨?_, fun line => jsSplit_first_second ": " (by decide) line, fun m t v b => rfl⟩
  intro line hnone
  have e : dropAfterSep? ": ".data line.data = none := by
    cases e : dropAfterSep? ": ".data line.data with
    | none => rfl
    | some p =>
      unfold tailAfter at hnone
      rw [e] at hnone
      exact absurd hnone (by simp)
  unfold jsSplit
  rw [if_neg (by decide)]
  have hfix : splitFuel ": ".data line.data.length line.data = [line.data] := by
    cases hf : line.data.length with
    | zero => rfl
    | succ n => rw [splitFuel, e]
  rw [hfix]
  rfl

/-- Witness for the amended claim C8, at the concrete header line
`"NoColonHere"`. -/
theorem header_split_witness :
    tailAfter ": " "NoColonHere" = none ∧ jsSplit "NoColonHere" ": " = ["NoColonHere"] :=
  ⟨by decide, header_split_amended.1 "NoColonHere" (by decide)⟩

/-- Claim C7: the parser is total — in the model every JavaScript operation it
performs (`split`, destructuring of the arrays `split` returns, `map`) is
non-throwing, so `parseRequestData` is a total function; degenerate inputs
(no blank-line separator, fewer than three start-line tokens, header lines
without `": "`) produce records with undefined or degenerate fields rather
than a fault. -/
theorem parser_total_degenerate :
    (∀ data : String, tailAfter "\r\n\r\n" data = none → (parseRequestData data).body = none) ∧
    parseRequestData "" = ⟨some "", none, none, [], none⟩ ∧
    parseRequestData "GET\r\n\r\n" = ⟨some "GET", none, none, [], some ""⟩ ∧
    parseRequestData "GET / HTTP/1.1\r\nNoColonHere\r\n\r\nleftover" =
      ⟨some "GET", some "/", some "HTTP/1.1", [["NoColonHere"]], some "leftover"⟩ := by
  refine ⟨?_, by decide, by decide, by decide⟩
  intro data h
  rw [parse_body_eq, (jsSplit_first_second "\r\n\r\n" (by decide) data).2, h]
  rfl

/-- Witness for claim C7, at the concrete separator-free input `"garbage"`. -/
theorem parser_total_degenerate_witness :
    tailAfter "\r\n\r\n" "garbage" = none ∧ (parseRequestData "garbage").body = none :=
  ⟨by decide, parser_total_degenerate.1 "garbage" (by decide)⟩

/-- Claim C1 (code-bug evidence): for a GET `/user-agent` request with no
header named exactly `User-Agent`, `headers.find` returns `undefined` and the
destructuring `const [, userAgent = ""] = undefined` throws a `TypeError`
(`none`), instead of the 200 response with an empty body that the spec
requires. -/
theorem userAgent_absent_throws :
    (parseRequestData "GET /user-agent HTTP/1.1\r\nAccept: text/html\r\n\r\n").headers.find?
      (fun l => l[0]? == some "User-Agent") = none ∧
    getResponse (fun _ => none) (fun _ _ => false)
      "GET /user-agent HTTP/1.1\r\nAccept: text/html\r\n\r\n" = none :=
  ⟨rfl, rfl⟩

/-- Claim C10: the response function is not total at the public interface —
the target `/echo/%` routes to the echo handler, whose `decodeURIComponent`
call throws a `URIError` (`none`), so `getResponse` throws instead of
returning response bytes. -/
theorem echo_decode_not_total :
    decodeURIComponent "%" = none ∧
    getResponse (fun _ => none) (fun _ _ => false) "GET /echo/% HTTP/1.1\r\n\r\n" = none :=
  ⟨rfl, rfl⟩

/-- Claim C4 counterexample: the raw request `"GET\r\n\r\n"` parses to method
`GET` with an undefined target, so it satisfies none of the five route
predicates; the claim then demands a 404 response, but routing reaches
`target.match(...)` on `undefined` and throws a `TypeError` (`none`). -/
theorem routing_missing_target_counterexample :
    (parseRequestData "GET\r\n\r\n").httpMethod = some "GET" ∧
    (parseRequestData "GET\r\n\r\n").target = none ∧
    getResponse (fun _ => none) (fun _ _ => false) "GET\r\n\r\n" = none ∧
    getResponse (fun _ => none) (fun _ _ => false) "GET\r\n\r\n" ≠
      some (getNotFoundResponse (parseRequestData "GET\r\n\r\n")) :=
  ⟨rfl, rfl, rfl, by decide⟩

/-- Claim C4 (amended): the five route guards are evaluated in the fixed
source order — (1) GET exactly `/`, (2) GET prefix `/echo/`, (3) GET exactly
`/user-agent`, (4) GET prefix `/files/`, (5) POST prefix `/files/` — and the
first matching guard's handler produces the response; every request whose
method is neither GET nor POST gets 404 regardless of target, and every GET
or POST request with a defined target matching none of the five gets 404;
however a GET or POST request whose start line lacks a target raises a
`TypeError` (`none`) instead of returning 404. -/
theorem routing_order_amended :
    (∀ rf wf req, req.httpMethod = some "GET" → req.target = some "/" →
      getResponseReq rf wf req = some (getRootResponse req)) ∧
    (∀ rf wf req t, req.httpMethod = some "GET" → req.target = some t →
      startsWithPat "/echo/" t = true →
      getResponseReq rf wf req = getEchoResponse req) ∧
    (∀ rf wf req, req.httpMethod = some "GET" → req.target = some "/user-agent" →
      getResponseReq rf wf req = getUserAgentResponse req) ∧
    (∀ rf wf req t, req.httpMethod = some "GET" → req.target = some t →
      startsWithPat "/files/" t = true →
      getResponseReq rf wf req = some (getFilesResponse rf req)) ∧
    (∀ rf wf req t, req.httpMethod = some "POST" → req.target = some t →
      startsWithPat "/files/" t = true →
      getResponseReq rf wf req = some (getSaveFilesResponse wf req)) ∧
    (∀ rf wf req, req.httpMethod ≠ some "GET" → req.httpMethod ≠ some "POST" →
      getResponseReq rf wf req = some (getNotFoundResponse req)) ∧
    (∀ rf wf req t, req.httpMethod = some "GET" → req.target = some t → t ≠ "/" →
      startsWithPat "/echo/" t = false → t ≠ "/user-agent" →
      startsWithPat "/files/" t = false →
      getResponseReq rf wf req = some (getNotFoundResponse req)) ∧
    (∀ rf wf req t, req.httpMethod = some "POST" → req.target = some t →
      startsWithPat "/files/" t = false →
      getResponseReq rf wf req = some (getNotFoundResponse req)) ∧
    (∀ rf wf req, (req.httpMethod = some "GET" ∨ req.httpMethod = some "POST") →
      req.target = none → getResponseReq rf wf req = none) :=
  ⟨route_root, route_echo, route_ua, route_filesGet, route_filesPost,
   route_404_method, route_404_get, route_404_post, route_no_target⟩

/-- Witness for the amended claim C4: a DELETE request gets 404, and a GET
request with a missing target throws. -/
theorem routing_order_witness :
    getResponseReq (fun _ => none) (fun _ _ => false)
      ⟨some "DELETE", some "/x", none, [], none⟩ =
      some (getNotFoundResponse ⟨some "DELETE", some "/x", none, [], none⟩) ∧
    getResponseReq (fun _ => none) (fun _ _ => false)
      ⟨some "GET", none, none, [], none⟩ = none :=
  ⟨routing_order_amended.2.2.2.2.2.1 _ _ _ (by decide) (by decide),
   routing_order_amended.2.2.2.2.2.2.2.2 _ _ _ (Or.inl rfl) rfl⟩

/-- Claim C3: a GET request whose target is `/echo/` followed by `rest` gets,
whenever `rest` percent-decodes to `s`, the exact 200 response with body `s`,
`Content-Type: text/plain`, and `Content-Length` equal to the UTF-8 byte
length of `s`; in particular percent-encoding round-trips on printable-ASCII
strings, whose byte length equals their character count. -/
theorem echo_response_and_roundtrip :
    (∀ rf wf req rest s, req.httpMethod = some "GET" →
      req.target = some ("/echo/" ++ rest) → decodeURIComponent rest = some s →
      getResponseReq rf wf req =
        some ("HTTP/1.1 200 OK\r\nContent-Type: text/plain\r\nContent-Length: " ++
          Nat.repr (byteLength s) ++ "\r\n\r\n" ++ s)) ∧
    (∀ s : String, printableAscii s →
      decodeURIComponent (percentEncode s) = some s ∧ byteLength s = s.data.length) := by
  constructor
  · intro rf wf req rest s hm ht hd
    rw [route_echo rf wf req ("/echo/" ++ rest) hm ht (startsWithPat_append "/echo/" rest),
      getEchoResponse_eq req rest ht, hd]
    show some (generateResponse .OK _ s) = _
    rw [generateResponse_two]
    rfl
  · intro s hs
    have ha : ∀ c ∈ s.data, c.toNat ≤ 126 := fun c hc => (hs c hc).2
    constructor
    · show (decodeFuel (percentEncode s).data.length (percentEncode s).data).map _ = some s
      rw [show (percentEncode s).data = encList s.data from rfl,
        decodeFuel_encList s.data ha (encList s.data).length (Nat.le_refl _)]
      rfl
    · exact byteLength_ascii s.data ha

/-- Witness for claim C3, at the concrete target `/echo/a%20b` decoding to
`"a b"`. -/
theorem echo_response_witness :
    getResponseReq (fun _ => none) (fun _ _ => false)
      ⟨some "GET", some ("/echo/" ++ "a%20b"), some "HTTP/1.1", [], some ""⟩ =
      some ("HTTP/1.1 200 OK\r\nContent-Type: text/plain\r\nContent-Length: " ++
        Nat.repr (byteLength "a b") ++ "\r\n\r\na b") ∧
    decodeURIComponent (percentEncode "a b") = some "a b" ∧
    byteLength "a b" = "a b".data.length :=
  ⟨echo_response_and_roundtrip.1 _ _ _ "a%20b" "a b" rfl rfl (by decide),
   (echo_response_and_roundtrip.2 "a b" (by decide)).1,
   (echo_response_and_roundtrip.2 "a b" (by decide)).2⟩

/-- Claim C5: writing body `B` to `/files/f` (with the write primitive
reporting success) answers `201 Created`, and, against the file-system state
in which `f` now holds `B`, a subsequent GET `/files/f` answers 200 with body
exactly `B`, `Content-Type: application/octet-stream`, and `Content-Length`
equal to the byte length of `B`. -/
theorem files_post_then_get (rf : String → Option String) (wf : String → String → Bool)
    (f B : String) (v : Option String) (hs : List (List String)) (hw : wf f B = true) :
    getResponseReq rf wf ⟨some "POST", some ("/files/" ++ f), v, hs, some B⟩ =
      some "HTTP/1.1 201 Created\r\n\r\n" ∧
    getResponseReq (fsAfterWrite rf f B) wf ⟨some "GET", some ("/files/" ++ f), v, hs, none⟩ =
      some ("HTTP/1.1 200 OK\r\nContent-Type: application/octet-stream\r\nContent-Length: " ++
        Nat.repr (byteLength B) ++ "\r\n\r\n" ++ B) := by
  have hp := startsWithPat_append "/files/" f
  constructor
  · rw [route_filesPost rf wf _ ("/files/" ++ f) rfl rfl hp,
      getSaveFilesResponse_eq wf _ f rfl]
    rw [show saveFile wf f (⟨some "POST", some ("/files/" ++ f), v, hs, some B⟩ :
      HttpRequest).body = wf f B from rfl, hw, if_pos rfl]
    rfl
  · rw [route_filesGet (fsAfterWrite rf f B) wf _ ("/files/" ++ f) rfl rfl hp,
      getFilesResponse_eq (fsAfterWrite rf f B) _ f rfl,
      show fsAfterWrite rf f B f = some B from by unfold fsAfterWrite; rw [if_pos rfl]]
    show some (generateResponse .OK _ B) = _
    rw [generateResponse_two]
    rfl

/-- Witness for claim C5, writing `"abc"` to `/files/hello` and reading it
back. -/
theorem files_post_then_get_witness :
    getResponseReq (fun _ => none) (fun _ _ => true)
      ⟨some "POST", some ("/files/" ++ "hello"), none, [], some "abc"⟩ =
      some "HTTP/1.1 201 Created\r\n\r\n" ∧
    getResponseReq (fsAfterWrite (fun _ => none) "hello" "abc") (fun _ _ => true)
      ⟨some "GET", some ("/files/" ++ "hello"), none, [], none⟩ =
      some ("HTTP/1.1 200 OK\r\nContent-Type: application/octet-stream\r\nContent-Length: " ++
        Nat.repr (byteLength "abc") ++ "\r\n\r\nabc") :=
  files_post_then_get (fun _ => none) (fun _ _ => true) "hello" "abc" none [] rfl

/-- Claim C6: on GET `/files/{name}` a read primitive reporting the file
absent yields 404; on POST `/files/{name}` a write primitive reporting
failure yields 500, and success yields `201 Created` with an empty body. -/
theorem files_error_handling :
    (∀ rf wf req name, req.httpMethod = some "GET" →
      req.target = some ("/files/" ++ name) → rf name = none →
      getResponseReq rf wf req = some "HTTP/1.1 404 Not Found\r\n\r\n") ∧
    (∀ rf wf req name B, req.httpMethod = some "POST" →
      req.target = some ("/files/" ++ name) → req.body = some B → wf name B = false →
      getResponseReq rf wf req = some "HTTP/1.1 500 Internal Server Error\r\n\r\n") ∧
    (∀ rf wf req name B, req.httpMethod = some "POST" →
      req.target = some ("/files/" ++ name) → req.body = some B → wf name B = true →
      getResponseReq rf wf req = some "HTTP/1.1 201 Created\r\n\r\n") := by
  refine ⟨?_, ?_, ?_⟩
  · intro rf wf req name hm ht hr
    rw [route_filesGet rf wf req _ hm ht (startsWithPat_append "/files/" name),
      getFilesResponse_eq rf req name ht, hr]
    rfl
  · intro rf wf req name B hm ht hb hw
    rw [route_filesPost rf wf req _ hm ht (startsWithPat_append "/files/" name),
      getSaveFilesResponse_eq wf req name ht, hb,
      show saveFile wf name (some B) = wf name B from rfl, hw]
    rfl
  · intro rf wf req name B hm ht hb hw
    rw [route_filesPost rf wf req _ hm ht (startsWithPat_append "/files/" name),
      getSaveFilesResponse_eq wf req name ht, hb,
      show saveFile wf name (some B) = wf name B from rfl, hw]
    rfl

/-- Witness for claim C6: a missing file answers 404, a failing write answers
500, a succeeding write answers 201. -/
theorem files_error_handling_witness :
    getResponseReq (fun _ => none) (fun _ _ => false)
      ⟨some "GET", some ("/files/" ++ "missing"), none, [], none⟩ =
      some "HTTP/1.1 404 Not Found\r\n\r\n" ∧
    getResponseReq (fun _ => none) (fun _ _ => false)
      ⟨some "POST", some ("/files/" ++ "f"), none, [], some "data"⟩ =
      some "HTTP/1.1 500 Internal Server Error\r\n\r\n" ∧
    getResponseReq (fun _ => none) (fun _ _ => true)
      ⟨some "POST", some ("/files/" ++ "f"), none, [], some "data"⟩ =
      some "HTTP/1.1 201 Created\r\n\r\n" :=
  ⟨files_error_handling.1 _ _ _ "missing" rfl rfl rfl,
   files_error_handling.2.1 _ _ _ "f" "data" rfl rfl rfl rfl,
   files_error_handling.2.2 _ _ _ "f" "data" rfl rfl rfl rfl⟩
